import Mathlib

/-!
Verification of the stOLAS APR script (`scripts/stolas_apr.py`).

The script has three algorithmic parts, embedded here as pure Lean
functions:

* `find_block_by_timestamp` — a lower-bound binary search over block
  numbers for the first block whose timestamp is at or after a target
  timestamp.  Python integers are modelled by `ℤ`; Python floor
  division `//` by a positive constant is `Int.ediv`.  The chain is
  modelled by a timestamp oracle `ts : ℤ → ℤ` together with the latest
  block number.  The embedding also counts how many timestamp probes
  (`w3.eth.get_block` calls) the loop performs.

* `get_pps_at_block` — the price-per-share ratio of two `uint256` view
  results, raising when the denominator is zero.  Python `RuntimeError`
  exceptions are modelled by `Except APRError`; Python float division
  is modelled by exact rational division (the claims under scrutiny are
  about the structure of the formulas, which is preserved verbatim).

* `compute_apr` — the APR computation inlined in `main` (source lines
  165–182), from the two PPS samples and the two block timestamps.
-/

/-- Error taxonomy of the script: `RuntimeError` on an undefined price
(zero denominator or zero past PPS) and on a non-positive measured
interval between the two sampled blocks. -/
inductive APRError where
  | undefinedPrice
  | nonPositiveInterval
deriving DecidableEq

/-- Lookback window in days (`LOOKBACK_DAYS = 7` in the script). -/
def LOOKBACK_DAYS : ℕ := 7

/-- Lookback window in seconds (`LOOKBACK_SECONDS = LOOKBACK_DAYS * 24 * 60 * 60`). -/
def LOOKBACK_SECONDS : ℕ := LOOKBACK_DAYS * 24 * 60 * 60

/-- The `while low <= high` loop of `find_block_by_timestamp`, with the
loop state `(low, high, best)` passed explicitly.  Returns the final
`best` together with the number of timestamp probes the loop issued
(one `w3.eth.get_block(mid)` per iteration).  `(low + high) // 2` in
Python is floor division, which is `/` on `ℤ` (`Int.ediv`) for the
positive divisor 2. -/
def searchLoop (ts : ℤ → ℤ) (target : ℤ) (low high best : ℤ) : ℤ × ℕ :=
  if low ≤ high then
    let mid := (low + high) / 2
    if target ≤ ts mid then
      let r := searchLoop ts target low (mid - 1) mid
      (r.1, r.2 + 1)
    else
      let r := searchLoop ts target (mid + 1) high best
      (r.1, r.2 + 1)
  else
    (best, 0)
termination_by (high + 1 - low).toNat
decreasing_by
  · omega
  · omega

/-- Binary search for the first block whose timestamp is `≥ target`
(source lines 52–76): `low` starts at 1 (genesis skipped), `high` and
`best` start at the latest block number. -/
def find_block_by_timestamp (ts : ℤ → ℤ) (latest target : ℤ) : ℤ :=
  (searchLoop ts target 1 latest latest).1

/-- Number of timestamp probes `find_block_by_timestamp` performs. -/
def find_block_probes (ts : ℤ → ℤ) (latest target : ℤ) : ℕ :=
  (searchLoop ts target 1 latest latest).2

/-- PPS at a block (source lines 79–99): `totalAssets / totalSupply`,
with a `RuntimeError` when `totalSupply == 0`.  The two `uint256` view
results are natural numbers; float division is modelled by `ℚ`. -/
def get_pps_at_block (total_assets total_supply : ℕ) : Except APRError ℚ :=
  if total_supply = 0 then
    .error .undefinedPrice
  else
    .ok ((total_assets : ℚ) / (total_supply : ℚ))

/-- Result record of the APR computation in `main`. -/
structure APRResult where
  change_ratio : ℚ
  change_pct : ℚ
  apr_7d_window : ℚ
  days_interval : ℚ
  apr_real : ℚ
deriving DecidableEq

/-- The APR computation inlined in `main` (source lines 165–182):
the zero check on `pps_past`, the change ratio, the fixed-window APR
(`yearly_factor_7d = 365 / LOOKBACK_DAYS`), the non-positive-interval
check on `dt_seconds = latest_ts - past_ts_actual`, and the
actual-window APR. -/
def compute_apr (pps_now pps_past : ℚ) (latest_ts past_ts_actual : ℤ) :
    Except APRError APRResult :=
  if pps_past = 0 then
    .error .undefinedPrice
  else
    let change_ratio := pps_now / pps_past
    let change_pct := (change_ratio - 1) * 100
    let yearly_factor_7d : ℚ := 365 / (LOOKBACK_DAYS : ℚ)
    let apr_7d_window := (change_ratio - 1) * yearly_factor_7d * 100
    let dt_seconds := latest_ts - past_ts_actual
    if dt_seconds ≤ 0 then
      .error .nonPositiveInterval
    else
      let days_interval : ℚ := (dt_seconds : ℚ) / (24 * 60 * 60)
      let yearly_factor_real := 365 / days_interval
      let apr_real := (change_ratio - 1) * yearly_factor_real * 100
      .ok ⟨change_ratio, change_pct, apr_7d_window, days_interval, apr_real⟩

/-- Timestamp oracle of the concrete scenario of the spec: block `b`
carries timestamp `100 + 10 * (b - 1)`, so blocks 1..10 carry
100, 110, ..., 190. -/
def scenario_ts (b : ℤ) : ℤ := 90 + 10 * b

lemma scenario_ts_mono : Monotone scenario_ts := fun a b hab => by
  simp only [scenario_ts]
  omega

/-- If every block in `[low, high]` has a timestamp strictly below the
target, the loop never overwrites `best`. -/
lemma searchLoop_const (ts : ℤ → ℤ) (target low high best : ℤ)
    (h : ∀ b, low ≤ b → b ≤ high → ts b < target) :
    (searchLoop ts target low high best).1 = best := by
  rw [searchLoop]
  by_cases hlh : low ≤ high
  · simp only [if_pos hlh]
    have hmid1 : low ≤ (low + high) / 2 := by omega
    have hmid2 : (low + high) / 2 ≤ high := by omega
    have hts : ts ((low + high) / 2) < target := h _ hmid1 hmid2
    simp only [if_neg (not_le.mpr hts)]
    exact searchLoop_const ts target ((low + high) / 2 + 1) high best
      (fun b hb1 hb2 => h b (by omega) hb2)
  · simp only [if_neg hlh]
termination_by (high + 1 - low).toNat
decreasing_by omega

/-- Loop invariant of the lower-bound binary search: starting from a
state where every block in `[1, low)` fails the condition and `best` is
either the untouched initial value (`latest`, with `high` still at
`latest`) or the least satisfying block found so far (sitting just above
`high`), the loop returns the least block of `[1, latest]` whose
timestamp is at or after the target. -/
lemma searchLoop_least (ts : ℤ → ℤ) (target latest : ℤ) (hm : Monotone ts)
    (hlast : target ≤ ts latest) (hlat : 1 ≤ latest)
    (low high best : ℤ) (hlow : 1 ≤ low) (hhigh : high ≤ latest)
    (hbelow : ∀ b, 1 ≤ b → b < low → ts b < target)
    (hbest : (best = latest ∧ high = latest) ∨
      (best = high + 1 ∧ target ≤ ts best ∧ 1 ≤ best ∧ best ≤ latest)) :
    1 ≤ (searchLoop ts target low high best).1 ∧
    (searchLoop ts target low high best).1 ≤ latest ∧
    target ≤ ts (searchLoop ts target low high best).1 ∧
    ∀ b, 1 ≤ b → b < (searchLoop ts target low high best).1 → ts b < target := by
  rw [searchLoop]
  by_cases hlh : low ≤ high
  · simp only [if_pos hlh]
    have hmid1 : low ≤ (low + high) / 2 := by omega
    have hmid2 : (low + high) / 2 ≤ high := by omega
    by_cases hcmp : target ≤ ts ((low + high) / 2)
    · simp only [if_pos hcmp]
      exact searchLoop_least ts target latest hm hlast hlat
        low ((low + high) / 2 - 1) ((low + high) / 2)
        hlow (by omega) hbelow (Or.inr ⟨by omega, hcmp, by omega, by omega⟩)
    · simp only [if_neg hcmp]
      refine searchLoop_least ts target latest hm hlast hlat
        ((low + high) / 2 + 1) high best (by omega) hhigh ?_ hbest
      intro b hb1 hb2
      rcases lt_or_le b low with hbl | hbl
      · exact hbelow b hb1 hbl
      · exact lt_of_le_of_lt (hm (by omega : b ≤ (low + high) / 2)) (not_le.mp hcmp)
  · simp only [if_neg hlh]
    rcases hbest with ⟨hb, hh⟩ | ⟨hb, hts, hb1, hb2⟩
    · exact absurd hlast (not_le.mpr (hbelow latest hlat (by omega)))
    · exact ⟨hb1, hb2, hts, fun b h1 h2 => hbelow b h1 (by omega)⟩
termination_by (high + 1 - low).toNat
decreasing_by
  · omega
  · omega

/-- C1: for every non-decreasing timestamp function and every target
with `timestamp(1) <= target <= timestamp(latest)`,
`find_block_by_timestamp` returns the smallest block number in
`[1, latest]` whose timestamp is `>= target`; no smaller block
satisfies the condition, and whenever `target <= timestamp(1)` the
result is block 1. -/
theorem find_block_by_timestamp_least (ts : ℤ → ℤ) (latest target : ℤ)
    (hm : Monotone ts) (hlat : 1 ≤ latest)
    (hlo : ts 1 ≤ target) (hhi : target ≤ ts latest) :
    (1 ≤ find_block_by_timestamp ts latest target ∧
     find_block_by_timestamp ts latest target ≤ latest ∧
     target ≤ ts (find_block_by_timestamp ts latest target) ∧
     (∀ b, 1 ≤ b → b < find_block_by_timestamp ts latest target → ts b < target)) ∧
    (target ≤ ts 1 → find_block_by_timestamp ts latest target = 1) := by
  have main := searchLoop_least ts target latest hm hhi hlat 1 latest latest
    le_rfl le_rfl (fun b hb1 hb2 => absurd hb1 (by omega)) (Or.inl ⟨rfl, rfl⟩)
  refine ⟨main, fun hle => ?_⟩
  obtain ⟨ha, hb, hc, hd⟩ := main
  by_contra hne
  have h1lt : 1 < (searchLoop ts target 1 latest latest).1 := by
    have : find_block_by_timestamp ts latest target =
        (searchLoop ts target 1 latest latest).1 := rfl
    omega
  exact absurd hle (not_le.mpr (hd 1 le_rfl h1lt))

/-- Closed instance of `find_block_by_timestamp_least` on the concrete
scenario (blocks 1..10 with timestamps 100..190, target 145). -/
theorem find_block_by_timestamp_least_witness :
    Monotone scenario_ts ∧ (1 : ℤ) ≤ 10 ∧
    scenario_ts 1 ≤ 145 ∧ (145 : ℤ) ≤ scenario_ts 10 ∧
    ((1 ≤ find_block_by_timestamp scenario_ts 10 145 ∧
      find_block_by_timestamp scenario_ts 10 145 ≤ 10 ∧
      145 ≤ scenario_ts (find_block_by_timestamp scenario_ts 10 145) ∧
      (∀ b, 1 ≤ b → b < find_block_by_timestamp scenario_ts 10 145 →
        scenario_ts b < 145)) ∧
     ((145 : ℤ) ≤ scenario_ts 1 → find_block_by_timestamp scenario_ts 10 145 = 1)) :=
  ⟨scenario_ts_mono, by norm_num, by norm_num [scenario_ts], by norm_num [scenario_ts],
   find_block_by_timestamp_least scenario_ts 10 145 scenario_ts_mono (by norm_num)
     (by norm_num [scenario_ts]) (by norm_num [scenario_ts])⟩

/-- Iteration bound of the loop on an interval of `n` candidate blocks:
zero for an empty interval, `log2 n + 1` otherwise. -/
def probeBound (n : ℕ) : ℕ := if n = 0 then 0 else Nat.log 2 n + 1

lemma probeBound_mono : Monotone probeBound := by
  intro a b hab
  unfold probeBound
  rcases Nat.eq_zero_or_pos a with ha | ha
  · simp [ha]
  · rw [if_neg (by omega), if_neg (by omega)]
    exact Nat.add_le_add_right (Nat.log_mono_right hab) 1

lemma probeBound_step (n : ℕ) (hn : 1 ≤ n) :
    probeBound (n / 2) + 1 ≤ probeBound n := by
  rcases eq_or_lt_of_le hn with h1 | h2
  · rw [← h1]
    simp [probeBound, Nat.log_one_right]
  · have hdiv : n / 2 ≠ 0 := by omega
    have hlog : Nat.log 2 (n / 2) = Nat.log 2 n - 1 := Nat.log_div_base 2 n
    have hpos : 0 < Nat.log 2 n := Nat.log_pos (by omega) (by omega)
    rw [probeBound, probeBound, if_neg hdiv, if_neg (by omega)]
    omega

/-- Each loop iteration at least halves the candidate interval, so the
probe count is bounded by `probeBound` of the interval size. -/
lemma searchLoop_probes (ts : ℤ → ℤ) (target low high best : ℤ) :
    (searchLoop ts target low high best).2 ≤ probeBound (high + 1 - low).toNat := by
  rw [searchLoop]
  by_cases hlh : low ≤ high
  · simp only [if_pos hlh]
    have hmid1 : low ≤ (low + high) / 2 := by omega
    have hmid2 : (low + high) / 2 ≤ high := by omega
    have hn : 1 ≤ (high + 1 - low).toNat := by omega
    by_cases hcmp : target ≤ ts ((low + high) / 2)
    · simp only [if_pos hcmp]
      show (searchLoop ts target low ((low + high) / 2 - 1) ((low + high) / 2)).2 + 1 ≤
        probeBound (high + 1 - low).toNat
      have hrec := searchLoop_probes ts target low ((low + high) / 2 - 1) ((low + high) / 2)
      have hhalf : ((low + high) / 2 - 1 + 1 - low).toNat ≤ (high + 1 - low).toNat / 2 := by
        omega
      have hm2 := probeBound_mono hhalf
      have hs := probeBound_step _ hn
      omega
    · simp only [if_neg hcmp]
      show (searchLoop ts target ((low + high) / 2 + 1) high best).2 + 1 ≤
        probeBound (high + 1 - low).toNat
      have hrec := searchLoop_probes ts target ((low + high) / 2 + 1) high best
      have hhalf : (high + 1 - ((low + high) / 2 + 1)).toNat ≤ (high + 1 - low).toNat / 2 := by
        omega
      have hm2 := probeBound_mono hhalf
      have hs := probeBound_step _ hn
      omega
  · simp only [if_neg hlh]
    exact Nat.zero_le _
termination_by (high + 1 - low).toNat
decreasing_by
  · omega
  · omega

/-- C7: for every latest block number `N >= 1`, the binary-search loop
of `find_block_by_timestamp` terminates (it is a total function) after
at most `log2 N + 1` timestamp probes. -/
theorem find_block_probes_log (ts : ℤ → ℤ) (latest target : ℤ)
    (h : 1 ≤ latest) :
    find_block_probes ts latest target ≤ Nat.log 2 latest.toNat + 1 := by
  have hb := searchLoop_probes ts target 1 latest latest
  have heq : (latest + 1 - 1 : ℤ).toNat = latest.toNat := by omega
  rw [heq] at hb
  refine le_trans hb ?_
  unfold probeBound
  split <;> omega

/-- Closed instance of `find_block_probes_log` on the scenario chain of
10 blocks. -/
theorem find_block_probes_log_witness :
    (1 : ℤ) ≤ 10 ∧
    find_block_probes scenario_ts 10 145 ≤ Nat.log 2 (10 : ℤ).toNat + 1 :=
  ⟨by norm_num, find_block_probes_log scenario_ts 10 145 (by norm_num)⟩

/-- C9: with latest block number 0 the loop body is never entered:
no timestamp probe is issued and the returned block number is 0,
which lies outside the range `[1, latest]` of the contract. -/
theorem find_block_by_timestamp_latest_zero (ts : ℤ → ℤ) (target : ℤ) :
    find_block_by_timestamp ts 0 target = 0 ∧
    find_block_probes ts 0 target = 0 ∧
    ¬ (1 ≤ find_block_by_timestamp ts 0 target) := by
  refine ⟨?_, ?_, ?_⟩ <;>
    simp [find_block_by_timestamp, find_block_probes, searchLoop]

/-- C2: when the target timestamp lies strictly beyond the latest
timestamp of a non-decreasing chain, no probe satisfies the condition,
`best` is never overwritten, and the function returns `latest` as a
defined fallback. -/
theorem find_block_by_timestamp_fallback (ts : ℤ → ℤ) (latest target : ℤ)
    (hm : Monotone ts) (h : ts latest < target) :
    find_block_by_timestamp ts latest target = latest :=
  searchLoop_const ts target 1 latest latest
    (fun b hb1 hb2 => lt_of_le_of_lt (hm hb2) h)

/-- Closed instance of `find_block_by_timestamp_fallback`: target 200 is
beyond every timestamp of the scenario chain, yet block 10 is returned. -/
theorem find_block_by_timestamp_fallback_witness :
    Monotone scenario_ts ∧ scenario_ts 10 < 200 ∧
    find_block_by_timestamp scenario_ts 10 200 = 10 :=
  ⟨scenario_ts_mono, by norm_num [scenario_ts],
   find_block_by_timestamp_fallback scenario_ts 10 200 scenario_ts_mono
     (by norm_num [scenario_ts])⟩

/-- C4: `get_pps_at_block` fails with `undefinedPrice` exactly when the
`totalSupply` view result is zero, regardless of `totalAssets`;
otherwise it returns the ratio `totalAssets / totalSupply`. -/
theorem get_pps_at_block_spec (total_assets total_supply : ℕ) :
    (get_pps_at_block total_assets total_supply = .error .undefinedPrice ↔
      total_supply = 0) ∧
    (total_supply ≠ 0 →
      get_pps_at_block total_assets total_supply =
        .ok ((total_assets : ℚ) / (total_supply : ℚ))) := by
  unfold get_pps_at_block
  by_cases h : total_supply = 0 <;> simp [h]

/-- Closed instance of `get_pps_at_block_spec`: denominator 0 fails even
with nonzero numerator, and 200/100 evaluates to 2. -/
theorem get_pps_at_block_spec_witness :
    get_pps_at_block 200 0 = .error .undefinedPrice ∧
    ((100 : ℕ) ≠ 0 ∧ get_pps_at_block 200 100 = .ok 2) :=
  ⟨(get_pps_at_block_spec 200 0).1.mpr rfl,
   by norm_num,
   by rw [(get_pps_at_block_spec 200 100).2 (by norm_num)]; norm_num⟩

/-- C5 counterexample: a pair of PPS samples with `pps_past = 0` and a
non-positive measured interval makes the computation fail with
`undefinedPrice` (the zero-past-price check fires first), not with
`nonPositiveInterval` as the claim states. -/
theorem compute_apr_nonpositive_counterexample :
    (100 : ℤ) - 100 ≤ 0 ∧
    compute_apr 1 0 100 100 = .error .undefinedPrice ∧
    compute_apr 1 0 100 100 ≠ .error .nonPositiveInterval := by
  refine ⟨by norm_num, by norm_num [compute_apr], ?_⟩
  norm_num [compute_apr]
  decide

/-- C5 (amended): for every pair of PPS samples with nonzero past PPS,
a non-positive measured interval between the past and latest block
timestamps makes the computation fail with `nonPositiveInterval` rather
than produce an APR result. -/
theorem compute_apr_nonpositive (pps_now pps_past : ℚ) (lts pts : ℤ)
    (hp : pps_past ≠ 0) (hdt : lts - pts ≤ 0) :
    compute_apr pps_now pps_past lts pts = .error .nonPositiveInterval := by
  simp only [compute_apr, if_neg hp, if_pos hdt]

/-- Closed instance of `compute_apr_nonpositive` at equal timestamps. -/
theorem compute_apr_nonpositive_witness :
    (1 : ℚ) ≠ 0 ∧ (5 : ℤ) - 5 ≤ 0 ∧
    compute_apr 3 1 5 5 = .error .nonPositiveInterval :=
  ⟨by norm_num, by norm_num,
   compute_apr_nonpositive 3 1 5 5 (by norm_num) (by norm_num)⟩

/-- C3: with positive PPS values and a positive measured interval the
computation succeeds and yields exactly
`apr_nominal = (now/past - 1) * (365/7) * 100` (using the configured
`LOOKBACK_DAYS = 7` and ignoring the measured interval) and
`apr_actual = (now/past - 1) * (365 / (elapsed/86400)) * 100`. -/
theorem compute_apr_formulas (pps_now pps_past : ℚ) (lts pts : ℤ)
    (hn : 0 < pps_now) (hp : 0 < pps_past) (hdt : 0 < lts - pts) :
    compute_apr pps_now pps_past lts pts =
      .ok ⟨pps_now / pps_past,
           (pps_now / pps_past - 1) * 100,
           (pps_now / pps_past - 1) * (365 / 7) * 100,
           ((lts - pts : ℤ) : ℚ) / 86400,
           (pps_now / pps_past - 1) *
             (365 / (((lts - pts : ℤ) : ℚ) / 86400)) * 100⟩ := by
  simp only [compute_apr, if_neg (ne_of_gt hp), if_neg (not_le.mpr hdt)]
  norm_num [LOOKBACK_DAYS]

/-- Closed instance of `compute_apr_formulas` with a doubling of PPS
over exactly one day. -/
theorem compute_apr_formulas_witness :
    (0 : ℚ) < 2 ∧ (0 : ℚ) < 1 ∧ (0 : ℤ) < 86400 - 0 ∧
    compute_apr 2 1 86400 0 =
      .ok ⟨2 / 1, (2 / 1 - 1) * 100, (2 / 1 - 1) * (365 / 7) * 100,
           ((86400 - 0 : ℤ) : ℚ) / 86400,
           (2 / 1 - 1) * (365 / (((86400 - 0 : ℤ) : ℚ) / 86400)) * 100⟩ :=
  ⟨by norm_num, by norm_num, by norm_num,
   compute_apr_formulas 2 1 86400 0 (by norm_num) (by norm_num) (by norm_num)⟩

/-- C6: with equal positive PPS samples and a positive interval, the
change ratio is exactly 1 and both annualized rates are exactly 0. -/
theorem compute_apr_zero_when_equal (r : ℚ) (lts pts : ℤ)
    (hr : 0 < r) (hdt : 0 < lts - pts) :
    compute_apr r r lts pts =
      .ok ⟨1, 0, 0, ((lts - pts : ℤ) : ℚ) / 86400, 0⟩ := by
  have h1 : r / r = 1 := div_self (ne_of_gt hr)
  simp only [compute_apr, if_neg (ne_of_gt hr), if_neg (not_le.mpr hdt), h1]
  norm_num

/-- Closed instance of `compute_apr_zero_when_equal`. -/
theorem compute_apr_zero_when_equal_witness :
    (0 : ℚ) < 2 ∧ (0 : ℤ) < 1 - 0 ∧
    compute_apr 2 2 1 0 = .ok ⟨1, 0, 0, ((1 - 0 : ℤ) : ℚ) / 86400, 0⟩ :=
  ⟨by norm_num, by norm_num,
   compute_apr_zero_when_equal 2 1 0 (by norm_num) (by norm_num)⟩

/-- C8: end-to-end concrete scenario of the spec.  On the chain with
blocks 1..10 carrying timestamps 100..190 the locator returns block 6
for target 145; 200/100 gives PPS 2 and 150/100 gives PPS 3/2; the
change ratio is 4/3 (within 0.00001 of 1.33333) and the fixed-window
APR is 36500/21 (within 0.01 of 1738.10). -/
theorem scenario_end_to_end :
    find_block_by_timestamp scenario_ts 10 145 = 6 ∧
    scenario_ts 6 = 150 ∧
    get_pps_at_block 200 100 = .ok 2 ∧
    get_pps_at_block 150 100 = .ok (3 / 2) ∧
    compute_apr 2 (3 / 2) 190 150 =
      .ok ⟨4 / 3, 100 / 3, 36500 / 21, 1 / 2160, 26280000⟩ ∧
    |(4 : ℚ) / 3 - 133333 / 100000| < 1 / 100000 ∧
    |(36500 : ℚ) / 21 - 17381 / 10| < 1 / 100 := by
  refine ⟨?_, by norm_num [scenario_ts], ?_, ?_, ?_, by norm_num [abs], by norm_num [abs]⟩
  · simp [find_block_by_timestamp, searchLoop, scenario_ts]
  · norm_num [get_pps_at_block]
  · norm_num [get_pps_at_block]
  · norm_num [compute_apr, LOOKBACK_DAYS]

/-- Division with an explicit zero-divisor check: `none` exactly when
the divisor is zero. -/
def safeDiv (a b : ℚ) : Option ℚ := if b = 0 then none else some (a / b)

/-- Variant of `get_pps_at_block` whose division is checked: a `none`
result would mean the division at source line 98 was reached with a
zero divisor. -/
def get_pps_at_block_checked (total_assets total_supply : ℕ) :
    Option (Except APRError ℚ) :=
  if total_supply = 0 then some (.error .undefinedPrice)
  else (safeDiv (total_assets : ℚ) (total_supply : ℚ)).map .ok

/-- Variant of `compute_apr` in which every division of the source
(lines 168, 172, 180, 181) is checked in source order: a `none` result
would mean some division was reached with a zero divisor. -/
def compute_apr_checked (pps_now pps_past : ℚ) (latest_ts past_ts_actual : ℤ) :
    Option (Except APRError APRResult) :=
  if pps_past = 0 then some (.error .undefinedPrice)
  else
    (safeDiv pps_now pps_past).bind fun change_ratio =>
    (safeDiv 365 (LOOKBACK_DAYS : ℚ)).bind fun yearly_factor_7d =>
    let change_pct := (change_ratio - 1) * 100
    let apr_7d_window := (change_ratio - 1) * yearly_factor_7d * 100
    let dt_seconds := latest_ts - past_ts_actual
    if dt_seconds ≤ 0 then some (.error .nonPositiveInterval)
    else
      (safeDiv (dt_seconds : ℚ) (24 * 60 * 60)).bind fun days_interval =>
      (safeDiv 365 days_interval).bind fun yearly_factor_real =>
      some (.ok ⟨change_ratio, change_pct, apr_7d_window, days_interval,
                 (change_ratio - 1) * yearly_factor_real * 100⟩)

/-- C10: no division of the script can be reached with a zero divisor:
the checked variants never return `none` and agree with the original
functions on every input, and the constant divisors `LOOKBACK_DAYS = 7`
and `86400` are nonzero. -/
theorem no_division_by_zero (total_assets total_supply : ℕ)
    (pps_now pps_past : ℚ) (lts pts : ℤ) :
    (LOOKBACK_DAYS : ℚ) ≠ 0 ∧ (86400 : ℚ) ≠ 0 ∧
    get_pps_at_block_checked total_assets total_supply =
      some (get_pps_at_block total_assets total_supply) ∧
    compute_apr_checked pps_now pps_past lts pts =
      some (compute_apr pps_now pps_past lts pts) := by
  refine ⟨by norm_num [LOOKBACK_DAYS], by norm_num, ?_, ?_⟩
  · by_cases h : total_supply = 0
    · simp [get_pps_at_block_checked, get_pps_at_block, h]
    · have hs : ((total_supply : ℚ)) ≠ 0 := Nat.cast_ne_zero.mpr h
      simp [get_pps_at_block_checked, get_pps_at_block, safeDiv, h, hs]
  · by_cases h : pps_past = 0
    · simp [compute_apr_checked, compute_apr, h]
    · by_cases hdt : lts - pts ≤ 0
      · simp [compute_apr_checked, compute_apr, safeDiv, h, hdt, LOOKBACK_DAYS]
      · have hdz : ((lts - pts : ℤ) : ℚ) ≠ 0 := by
          have hne : lts - pts ≠ 0 := by omega
          exact Int.cast_ne_zero.mpr hne
        have hdays : ((lts - pts : ℤ) : ℚ) / (24 * 60 * 60) ≠ 0 :=
          div_ne_zero hdz (by norm_num)
        have hdz2 : (lts : ℚ) - (pts : ℚ) ≠ 0 := by push_cast at hdz; exact hdz
        simp [compute_apr_checked, compute_apr, safeDiv, h, hdt, hdz, hdz2, hdays,
          LOOKBACK_DAYS]
